import Mathlib

/-!
Shallow embedding of `src/src/lib/Vault.py` (class `Vault`): the in-memory
vault data model, the item operations (`addItem`, `get`, `editItemInput`,
`itemDelete`, `search`, `itemShowSecret`) and master-key rotation
(`changeKey`).  Interactive input is modelled as an explicit event stream;
persistence (`saveVault`, which is not part of the sources) is modelled
from the specification as a full encrypt-and-write of the whole structure.
-/

namespace VaultModel

/-- A category: `{id: ordinal integer, name: text}` (spec §3); the Python
code stores categories as dicts with an `id` and a `name`. -/
structure Category where
  id : Nat
  name : String
deriving DecidableEq, Repr

/-- A secret item, exactly the dict built by `Vault.addItem`:
`{'category': categoryId, 'name': name, 'login': login,
'password': password, 'notes': notes}`.  The `category` field holds the
raw categoryId string (empty string = no category). -/
structure SecretItem where
  category : String
  name : String
  login : String
  password : String
  notes : String
deriving DecidableEq, Repr

/-- The decrypted vault: `self.vault`, a dict with optional keys
`categories` and `secrets`; a missing key behaves like the empty list
(the code tests both with `self.vault.get(...)` truthiness). -/
structure Vault where
  categories : List Category
  secrets : List SecretItem
deriving DecidableEq, Repr

/-- Modelled from the spec: the encrypted on-disk vault file.  The sources
do not contain `saveVault`/`unlock`/the cipher layer; per spec §4.2-§4.3 the
file is produced by authenticated encryption of the serialized vault under
the live key, so it is decryptable exactly by the key it was written with.
We record that key and the plaintext it decrypts to. -/
structure EncryptedFile where
  encKey : String
  content : Vault
deriving DecidableEq, Repr

/-- The mutable state of a `Vault` object while unlocked: the decrypted
vault (`self.vault`), the live master key (`self.masterKey`) and the
on-disk file. -/
structure VState where
  vault : Vault
  masterKey : String
  disk : EncryptedFile
deriving DecidableEq, Repr

/-- Modelled from the spec: `saveVault` (not in src) — "every mutation is
followed by a full re-encrypt-and-write of the whole structure" (spec §3,
§4.5): serialize the whole vault, encrypt it under the live master key
with a fresh nonce, and write the file. -/
def saveVault (st : VState) : VState :=
  { st with disk := ⟨st.masterKey, st.vault⟩ }

/-- Python `s.isdigit()` followed by `int(s)`, for ASCII digit strings:
`some` of the decimal value when `s` is non-empty and all digits, else
`none`. -/
def pyToNat (s : String) : Option Nat :=
  if s.data ≠ [] ∧ s.data.all Char.isDigit then
    some (s.data.foldl (fun acc c => acc * 10 + (c.toNat - 48)) 0)
  else none

/-- Modelled from the spec: `categoryCheckId` (not in src) — "categoryId,
if given, must reference an existing category" (spec §4.4): the string
parses as an integer id of an existing category. -/
def categoryCheckId (v : Vault) (s : String) : Bool :=
  match pyToNat s with
  | some n => v.categories.any (fun c => c.id == n)
  | none => false

/-- Modelled from the spec: `categoryName` (not in src) — the "resolved
category name" used by `search` and the display code.  Resolves a stored
categoryId string to the category's name; the text used for an empty or
unresolvable reference is unspecified, modelled as the empty string. -/
def categoryName (v : Vault) (s : String) : String :=
  match pyToNat s with
  | some n =>
    match v.categories.find? (fun c => c.id == n) with
    | some c => c.name
    | none => ""
  | none => ""

/-- Python sequence-index normalisation: a non-negative index must be
below the length; a negative index counts from the end
(`xs[i]` = `xs[len+i]` for `-len ≤ i < 0`); anything else raises
`IndexError` (modelled as `none`). -/
def pyNorm (len : Nat) (i : Int) : Option Nat :=
  if 0 ≤ i then
    if i < (len : Int) then some i.toNat else none
  else
    if 0 ≤ i + (len : Int) then some (i + (len : Int)).toNat else none

/-- Python list indexing `xs[i]` with `IndexError` as `none`. -/
def pyIndex {α : Type} (l : List α) (i : Int) : Option α :=
  match pyNorm l.length i with
  | some n => l.get? n
  | none => none

/-- `leadMatch needle hay`: `needle` is an initial segment of `hay`
(character-wise). -/
def leadMatch : List Char → List Char → Bool
  | [], _ => true
  | _ :: _, [] => false
  | a :: as, b :: bs => a == b && leadMatch as bs

/-- `hasSub needle hay`: `needle` occurs contiguously inside `hay` —
Python's `needle in hay` on strings. -/
def hasSub (needle : List Char) : List Char → Bool
  | [] => leadMatch needle []
  | b :: bs => leadMatch needle (b :: bs) || hasSub needle bs

/-- `search.upper() in field.upper()`: case-insensitive (ASCII upper-case
both sides) substring containment. -/
def containsCI (hay needle : String) : Bool :=
  hasSub (needle.data.map Char.toUpper) (hay.data.map Char.toUpper)

/-- Replace the element at position `n` (no-op when out of range; the
Python assignment `self.vault['secrets'][itemKey][field] = v` would raise
on an out-of-range key, and is only reached with a valid one). -/
def listModify {α : Type} (f : α → α) : Nat → List α → List α
  | _, [] => []
  | 0, a :: l => f a :: l
  | n + 1, a :: l => a :: listModify f n l

/-- `Vault.addItem` (lines 95-113), the in-memory part: create the
`secrets` list if necessary and append the new item.  (The method then
calls `self.saveVault()`; see `addItemM`.) -/
def addItem (v : Vault) (categoryId name login password notes : String) : Vault :=
  { v with secrets := v.secrets ++ [⟨categoryId, name, login, password, notes⟩] }

/-- `Vault.addItem` as a state transformer: append the item, then
`saveVault`. -/
def addItemM (st : VState) (categoryId name login password notes : String) : VState :=
  saveVault { st with vault := addItem st.vault categoryId name login password notes }

/-- `Vault.get(id)` (lines 115-148), the retrieval part:
`self.vault['secrets'][int(id)]`, with any exception (IndexError,
missing key) caught and reported as "Item does not exist." (`none`). -/
def Vault.getSecret (v : Vault) (i : Int) : Option SecretItem :=
  pyIndex v.secrets i

/-- The editable fields of `editItemInput`. -/
inductive FieldName where
  | category
  | name
  | login
  | password
  | notes
deriving DecidableEq, Repr

/-- Assign one field of a secret item
(`self.vault['secrets'][itemKey][fieldName] = fieldNewValue`). -/
def setField (it : SecretItem) : FieldName → String → SecretItem
  | .category, v => { it with category := v }
  | .name, v => { it with name := v }
  | .login, v => { it with login := v }
  | .password, v => { it with password := v }
  | .notes, v => { it with notes := v }

/-- The update-and-save tail of `editItemInput` (lines 315-324): assign
the new field value on the item in place, then `saveVault`. -/
def editFieldM (st : VState) (itemKey : Nat) (f : FieldName) (newValue : String) : VState :=
  saveVault
    { st with vault :=
        { st.vault with secrets := listModify (fun it => setField it f newValue) itemKey st.vault.secrets } }

/-- `Vault.itemDelete(itemKey)` (lines 326-344): look the item up (any
exception → "Item does not exist.", no change); else ask for
confirmation; when confirmed, `self.vault['secrets'].pop(itemKey)` and
`saveVault`. -/
def itemDelete (st : VState) (itemKey : Int) (confirmed : Bool) : VState :=
  match pyNorm st.vault.secrets.length itemKey with
  | none => st
  | some n =>
    if confirmed then
      saveVault { st with vault := { st.vault with secrets := st.vault.secrets.eraseIdx n } }
    else st

/-- One matching test of the `search` loop (lines 397-400): the query,
upper-cased, occurs in the upper-cased name, login, notes or resolved
category name. -/
def matchesQuery (v : Vault) (q : String) (it : SecretItem) : Bool :=
  containsCI it.name q || containsCI it.login q || containsCI it.notes q ||
    containsCI (categoryName v it.category) q

/-- The search-result rows (lines 391-414): the pairs `(i, item)` kept by
`for i, item in enumerate(self.vault['secrets'])`, in vault order.  (The
code also numbers them 1.. and keeps category/name/login columns for
display; the `(i, item)` pairs determine all of that.) -/
def searchHits (v : Vault) (q : String) : List (Nat × SecretItem) :=
  v.secrets.enum.filter (fun p => matchesQuery v q p.2)

/-- What `Vault.search` does with a query string, as data. -/
inductive SearchOutcome where
  /-- Empty search: "Empty search!", return to menu. -/
  | emptySearch
  /-- The query is one of the common commands `s`, `a`, `l`, `q`:
  returned to the menu loop as a command. -/
  | command (c : String)
  /-- The query is `b`: return to the previous menu. -/
  | back
  /-- The query is an item number in range: `return self.get(int(search))`. -/
  | byIndex (n : Nat)
  /-- The substring scan ran; its hits (possibly empty: "No results!").
  A single hit is auto-opened via `self.get`, several are tabulated. -/
  | results (rs : List (Nat × SecretItem))
  /-- `self.vault.get('secrets')` is falsy: "There are no secrets saved
  yet." -/
  | noSecrets
deriving DecidableEq, Repr

/-- `Vault.search` (lines 346-434) on a given query string: empty check,
command fat-finger check (`['s','a','l','q']`, then `'b'`), then — when
there are secrets — the all-digits item-number bypass (only when the
number is in range; an `IndexError` falls through to the scan), then the
substring scan. -/
def searchQuery (v : Vault) (q : String) : SearchOutcome :=
  if q = "" then .emptySearch
  else if q = "s" ∨ q = "a" ∨ q = "l" ∨ q = "q" then .command q
  else if q = "b" then .back
  else if v.secrets ≠ [] then
    match pyToNat q with
    | some n =>
      if n < v.secrets.length then .byIndex n else .results (searchHits v q)
    | none => .results (searchHits v q)
  else .noSecrets

/-- "The password will be hidden after %s seconds." -/
def headerLine (hideSecretTTL : Nat) : String :=
  "The password will be hidden after " ++ toString hideSecretTTL ++ " seconds."

/-- "The password is: %s" (printed with a carriage return, so the next
line printed over it hides it when it is at least as long). -/
def revealLine (password : String) : String :=
  "The password is: " ++ password

/-- The masking line printed after the wait: `'The password is: ' + '*' *
len(password)`. -/
def maskLine (password : String) : String :=
  "The password is: " ++ String.mk (List.replicate password.length '*')

/-- How the blocking wait of `itemShowSecret` ends. -/
inductive ShowEnd where
  /-- `time.sleep(hideSecretTTL)` returned normally. -/
  | ttlElapsed
  /-- The user pressed Ctrl-C during the wait: `KeyboardInterrupt` is
  caught and ignored (`pass`). -/
  | interrupted
deriving DecidableEq, Repr

/-- `Vault.itemShowSecret` (lines 202-217) as the sequence of lines
printed: the try-block prints the header and the plaintext and sleeps;
a `KeyboardInterrupt` raised by the sleep is caught (`pass`); either way
control reaches the final masking print. -/
def itemShowSecret (hideSecretTTL : Nat) (password : String) (e : ShowEnd) : List String :=
  (match e with
   | .ttlElapsed => [headerLine hideSecretTTL, revealLine password]
   | .interrupted => [headerLine hideSecretTTL, revealLine password])
  ++ [maskLine password]

/-- `Vault.changeKey` (lines 469-507) on an unlocked vault, fed the
successive `(new key, confirmation)` pairs the user types; an exhausted
input stream models the user abandoning the prompt.  A key shorter than
8 characters, or a mismatched confirmation, prints an error and retries
(`self.changeKey()`); otherwise `self.masterKey = newMasterKey` and then
`self.saveVault()`. -/
def changeKey (st : VState) : List (String × String) → VState
  | [] => st
  | (nk, rk) :: rest =>
    if nk.length < 8 then changeKey st rest
    else if nk = rk then saveVault { st with masterKey := nk }
    else changeKey st rest

/-- The intermediate states `changeKey` passes through, in order: for the
accepted attempt, first the state after `self.masterKey = newMasterKey`
(the old key is gone from memory, the disk not yet rewritten), then the
state after `self.saveVault()`. -/
def changeKeyTrace (st : VState) : List (String × String) → List VState
  | [] => [st]
  | (nk, rk) :: rest =>
    if nk.length < 8 then st :: changeKeyTrace st rest
    else if nk = rk then
      [st, { st with masterKey := nk }, saveVault { st with masterKey := nk }]
    else st :: changeKeyTrace st rest

/-- One event of the interactive input stream: a line of text (also
covers `getpass` input), or Ctrl-C (`KeyboardInterrupt`). -/
inductive InEvent where
  | text (s : String)
  | cancel
deriving DecidableEq, Repr

/-- Read one input line.  `none` = the read was cancelled (Ctrl-C) or the
stream is exhausted; the enclosing handler then returns from the whole
input flow.  Also returns the rest of the stream. -/
def readLine : List InEvent → Option String × List InEvent
  | [] => (none, [])
  | .text s :: rest => (some s, rest)
  | .cancel :: rest => (none, rest)

/-- The notes loop (`press [ENTER] twice to complete`): collect lines
until an empty one; Ctrl-C cancels the whole input flow. -/
def readNotes : List InEvent → Option (List String) × List InEvent
  | [] => (none, [])
  | .cancel :: rest => (none, rest)
  | .text s :: rest =>
    if s = "" then (some [], rest)
    else
      match readNotes rest with
      | (some ls, r) => (some (s :: ls), r)
      | (none, r) => (none, r)

/-- The tail of `addItemInput` after the category was chosen: read name,
login, password and notes (any Ctrl-C returns without saving), then
`self.addItem(categoryId, name, login, password, '\n'.join(notes))`,
which appends the item and saves the vault. -/
def readBasics (st : VState) (categoryId : String) (events : List InEvent) :
    VState × List InEvent :=
  match readLine events with
  | (none, r) => (st, r)
  | (some name, r1) =>
    match readLine r1 with
    | (none, r) => (st, r)
    | (some login, r2) =>
      match readLine r2 with
      | (none, r) => (st, r)
      | (some password, r3) =>
        match readNotes r3 with
        | (none, r) => (st, r)
        | (some notes, r4) =>
          (addItemM st categoryId name login password (String.intercalate "\n" notes), r4)

/-- `Vault.addItemInput` (lines 30-93).  With categories present it reads
a category number; a non-empty number failing `categoryCheckId` prints
"Invalid category. Please try again." and recurses — and when the
recursive call returns, control falls through (there is no `return`) and
the original invocation carries on with the *invalid* categoryId, reading
the remaining input and saving the item.  Without categories the
categoryId is the empty string. -/
def addItemInput (st : VState) (events : List InEvent) : VState × List InEvent :=
  if st.vault.categories ≠ [] then
    match events with
    | [] => (st, [])
    | .cancel :: rest => (st, rest)
    | .text categoryId :: rest =>
      if categoryId ≠ "" ∧ categoryCheckId st.vault categoryId = false then
        match addItemInput st rest with
        | (st1, rest1) => readBasics st1 categoryId rest1
      else readBasics st categoryId rest
  else readBasics st "" events

/-- The `category` branch of `Vault.editItemInput` (lines 265-324): read
a category number (Ctrl-C returns without change); a non-empty number
failing `categoryCheckId` prints "Invalid category. Please try again."
and recurses — and when the recursive call returns, control falls through
(no `return`) and the *invalid* value is assigned to the item's
`category` field and the vault saved. -/
def editItemInputCategory (st : VState) (itemKey : Nat) (events : List InEvent) :
    VState × List InEvent :=
  match events with
  | [] => (st, [])
  | .cancel :: rest => (st, rest)
  | .text newVal :: rest =>
    if newVal ≠ "" ∧ categoryCheckId st.vault newVal = false then
      match editItemInputCategory st itemKey rest with
      | (st1, rest1) => (editFieldM st1 itemKey .category newVal, rest1)
    else (editFieldM st itemKey .category newVal, rest)

/-! ## Concrete instances used by witnesses and counterexamples -/

/-- `{name: "bank", login: "alice", password: "p1"}`, no category. -/
def sBank : SecretItem := ⟨"", "bank", "alice", "p1", ""⟩

/-- A vault holding exactly the secret `sBank`, no categories. -/
def vOneSecret : Vault := ⟨[], [sBank]⟩

/-- An unlocked session on `vOneSecret` whose disk file matches the live
key (the situation right after a successful unlock). -/
def stOne : VState := ⟨vOneSecret, "correcthorse", ⟨"correcthorse", vOneSecret⟩⟩

/-- `{name: "sam", login: "alice"}`: its name contains the letter `s`. -/
def sSam : SecretItem := ⟨"", "sam", "alice", "p1", ""⟩

/-- A vault holding exactly `sSam`. -/
def vSam : Vault := ⟨[], [sSam]⟩

/-- A further secret, used to make a two-element vault. -/
def sMail : SecretItem := ⟨"", "mail", "bob", "p2", ""⟩

/-- A vault with two secrets, indices 0 and 1. -/
def vTwoSecrets : Vault := ⟨[], [sBank, sMail]⟩

/-- The single category `{id: 0, name: "work"}`. -/
def catWork : Category := ⟨0, "work"⟩

/-- A vault with one category and no secrets. -/
def vCats : Vault := ⟨[catWork], []⟩

/-- An unlocked session on `vCats`. -/
def stCats : VState := ⟨vCats, "correcthorse", ⟨"correcthorse", vCats⟩⟩

/-- Input script: category number `9` (invalid — only id 0 exists), Ctrl-C
out of the retry prompt, then name/login/password and empty notes. -/
def eventsBadCat : List InEvent :=
  [.text "9", .cancel, .text "bank", .text "alice", .text "p4ss", .text ""]

/-- A vault with the category `catWork` and the secret `sBank`. -/
def vOneCat : Vault := ⟨[catWork], [sBank]⟩

/-- An unlocked session on `vOneCat`. -/
def stEdit : VState := ⟨vOneCat, "correcthorse", ⟨"correcthorse", vOneCat⟩⟩

/-! ## Helper lemmas -/

/-- Every member of `l.enumFrom n` has first component at least `n`. -/
lemma fst_le_of_mem_enumFrom {α : Type} {l : List α} {n : Nat} {p : Nat × α}
    (hp : p ∈ l.enumFrom n) : n ≤ p.1 := by
  obtain ⟨i, a⟩ := p
  exact (List.mk_mem_enumFrom_iff_le_and_getElem?_sub.mp hp).1

/-- The indices produced by `enumFrom` are strictly increasing. -/
lemma pairwise_fst_lt_enumFrom {α : Type} (l : List α) :
    ∀ n : Nat, (l.enumFrom n).Pairwise (fun a b => a.1 < b.1) := by
  induction l with
  | nil => intro n; simp
  | cons x xs ih =>
    intro n
    refine List.Pairwise.cons ?_ (ih (n + 1))
    intro b hb
    have := fst_le_of_mem_enumFrom hb
    omega

/-- The indices produced by `enum` are strictly increasing. -/
lemma pairwise_fst_lt_enum {α : Type} (l : List α) :
    l.enum.Pairwise (fun a b => a.1 < b.1) :=
  pairwise_fst_lt_enumFrom l 0

/-- Removing the element at a valid position removes exactly one
occurrence of that element: occurrence counts, for every value. -/
lemma count_eraseIdx_add {α : Type} [DecidableEq α] (l : List α) (k : Nat)
    (h : k < l.length) (a : α) :
    (l.eraseIdx k).count a + (if l.get? k = some a then 1 else 0) = l.count a := by
  rw [List.eraseIdx_eq_take_drop_succ]
  conv_rhs => rw [← List.take_append_drop k l]
  rw [List.drop_eq_getElem_cons h]
  rw [List.count_append, List.count_append, List.count_cons]
  have hk : l.get? k = some l[k] := by
    simp [List.get?_eq_getElem?, List.getElem?_eq_getElem h]
  rw [hk]
  by_cases ha : a = l[k] <;> simp [ha] <;> omega

/-- Along any run of `changeKey`, the decrypted vault never changes, the
live key is the original one or an accepted (≥ 8 characters) new one, and
the disk holds the original file or a freshly saved file under the
current key. -/
lemma changeKeyTrace_inv (st : VState) (inputs : List (String × String)) :
    ∀ s ∈ changeKeyTrace st inputs,
      s.vault = st.vault
      ∧ (s.masterKey = st.masterKey ∨ 8 ≤ s.masterKey.length)
      ∧ (s.disk = st.disk ∨ (s.disk = ⟨s.masterKey, s.vault⟩ ∧ 8 ≤ s.masterKey.length)) := by
  induction inputs with
  | nil =>
    intro s hs
    simp only [changeKeyTrace, List.mem_singleton] at hs
    subst hs
    exact ⟨rfl, Or.inl rfl, Or.inl rfl⟩
  | cons p rest ih =>
    obtain ⟨nk, rk⟩ := p
    intro s hs
    by_cases h8 : nk.length < 8
    · simp only [changeKeyTrace, if_pos h8, List.mem_cons] at hs
      rcases hs with rfl | hs
      · exact ⟨rfl, Or.inl rfl, Or.inl rfl⟩
      · exact ih s hs
    · by_cases heq : nk = rk
      · simp only [changeKeyTrace, if_neg h8, if_pos heq, List.mem_cons,
          List.mem_singleton, List.not_mem_nil, or_false] at hs
        rcases hs with rfl | rfl | rfl
        · exact ⟨rfl, Or.inl rfl, Or.inl rfl⟩
        · exact ⟨rfl, Or.inr (by simpa using Nat.le_of_not_lt h8), Or.inl rfl⟩
        · exact ⟨rfl, Or.inr (by simpa using Nat.le_of_not_lt h8),
            Or.inr ⟨rfl, by simpa using Nat.le_of_not_lt h8⟩⟩
      · simp only [changeKeyTrace, if_neg h8, if_neg heq, List.mem_cons] at hs
        rcases hs with rfl | hs
        · exact ⟨rfl, Or.inl rfl, Or.inl rfl⟩
        · exact ih s hs

/-- The final state of `changeKey` is one of the states of its trace. -/
lemma changeKey_mem_trace (st : VState) (inputs : List (String × String)) :
    changeKey st inputs ∈ changeKeyTrace st inputs := by
  induction inputs with
  | nil => simp [changeKey, changeKeyTrace]
  | cons p rest ih =>
    obtain ⟨nk, rk⟩ := p
    by_cases h8 : nk.length < 8
    · simp only [changeKey, changeKeyTrace, if_pos h8]
      exact List.mem_cons_of_mem _ ih
    · by_cases heq : nk = rk
      · simp [changeKey, changeKeyTrace, if_neg h8, if_pos heq]
      · simp only [changeKey, changeKeyTrace, if_neg h8, if_neg heq]
        exact List.mem_cons_of_mem _ ih

/-! ## Claims -/

/-- C8: for every secret value and every configured hide TTL, the
show-secret operation ends with the secret masked on screen — the last
line printed is a line of asterisks of the secret's length in place of
the plaintext (and of the same total width as the revealed line it
overwrites) — both when the TTL elapses and when the wait is interrupted
by user cancellation. -/
theorem C8_show_secret_always_masks (hideSecretTTL : Nat) (password : String) (e : ShowEnd) :
    (itemShowSecret hideSecretTTL password e).getLast? = some (maskLine password)
    ∧ maskLine password = "The password is: " ++ String.mk (List.replicate password.length '*')
    ∧ (maskLine password).length = (revealLine password).length := by
  refine ⟨?_, rfl, ?_⟩
  · cases e <;> rfl
  · have h1 : (String.mk (List.replicate password.length '*')).length = password.length := by
      show (List.replicate password.length '*').length = password.length
      exact List.length_replicate ..
    simp [maskLine, revealLine, String.length_append, h1]

/-- C5 counterexample: `-1` is outside the bounds of the one-element
secrets sequence (it is neither `0 ≤ -1` nor below the length), yet
`get` returns the last secret rather than failing. -/
theorem C5_counterexample :
    ¬ ((0 : Int) ≤ -1 ∧ (-1 : Int) < (vOneSecret.secrets.length : Int))
    ∧ vOneSecret.getSecret (-1) = some sBank := by
  exact ⟨by decide, rfl⟩

/-- C5 (amended): for every index at or above the length, or strictly
below minus the length, `get` fails with NotFound ("Item does not
exist.") and returns no secret item. -/
theorem C5_get_out_of_bounds (v : Vault) (i : Int)
    (h : (v.secrets.length : Int) ≤ i ∨ i < -(v.secrets.length : Int)) :
    v.getSecret i = none := by
  unfold Vault.getSecret pyIndex pyNorm
  rcases h with h | h
  · have h0 : (0 : Int) ≤ i := le_trans (Int.natCast_nonneg _) h
    have h1 : ¬ i < (v.secrets.length : Int) := not_lt.mpr h
    simp [h0, h1]
  · have h0 : ¬ (0 : Int) ≤ i := by omega
    have h1 : ¬ (0 : Int) ≤ i + (v.secrets.length : Int) := by omega
    simp [h0, h1]

/-- C5 witness: index 5 on the one-secret vault fails. -/
theorem C5_witness : vOneSecret.getSecret 5 = none :=
  C5_get_out_of_bounds vOneSecret 5 (Or.inl (by decide))

/-- C9: on a non-empty secrets sequence, retrieving index `-k` for
`1 ≤ k ≤ length` returns the secret at position `length - k` (so `-1` is
the last secret) instead of failing with NotFound. -/
theorem C9_negative_index_wraps (v : Vault) (k : Nat)
    (h1 : 1 ≤ k) (h2 : k ≤ v.secrets.length) :
    v.getSecret (-(k : Int)) = v.secrets.get? (v.secrets.length - k)
    ∧ (v.getSecret (-(k : Int))).isSome := by
  have hnorm : pyNorm v.secrets.length (-(k : Int)) = some (v.secrets.length - k) := by
    unfold pyNorm
    have h0 : ¬ (0 : Int) ≤ -(k : Int) := by omega
    have h3 : (0 : Int) ≤ -(k : Int) + (v.secrets.length : Int) := by omega
    simp only [if_neg h0, if_pos h3]
    congr 1
    omega
  have hlt : v.secrets.length - k < v.secrets.length := by omega
  constructor
  · unfold Vault.getSecret pyIndex
    rw [hnorm]
  · unfold Vault.getSecret pyIndex
    rw [hnorm]
    simp [List.get?_eq_getElem?, List.getElem?_eq_getElem hlt]

/-- C9 witness: `get(-1)` on the one-secret vault returns the secret. -/
theorem C9_witness :
    vOneSecret.getSecret (-(1 : Nat) : Int)
        = vOneSecret.secrets.get? (vOneSecret.secrets.length - 1)
    ∧ (vOneSecret.getSecret (-(1 : Nat) : Int)).isSome :=
  C9_negative_index_wraps vOneSecret 1 (by decide) (by decide)

/-- C2: deleting the secret at a valid index `k` (confirmed) removes
exactly that item: the length drops by one, indices below `k` are
unchanged, every secret previously at `j > k` is now at `j - 1`, and
exactly one occurrence of the deleted secret is gone from the sequence. -/
theorem C2_delete_shifts_down (st : VState) (k : Nat)
    (h : k < st.vault.secrets.length) :
    (itemDelete st (k : Int) true).vault.secrets.length = st.vault.secrets.length - 1
    ∧ (∀ j, j < k →
        (itemDelete st (k : Int) true).vault.secrets.get? j = st.vault.secrets.get? j)
    ∧ (∀ j, k < j →
        (itemDelete st (k : Int) true).vault.secrets.get? (j - 1) = st.vault.secrets.get? j)
    ∧ (∀ a : SecretItem,
        (itemDelete st (k : Int) true).vault.secrets.count a
          + (if st.vault.secrets.get? k = some a then 1 else 0)
          = st.vault.secrets.count a) := by
  have hnorm : pyNorm st.vault.secrets.length (k : Int) = some k := by
    unfold pyNorm
    have h0 : (0 : Int) ≤ (k : Int) := Int.natCast_nonneg _
    have h1 : (k : Int) < (st.vault.secrets.length : Int) := by exact_mod_cast h
    simp [h0, h1]
  have hsec : (itemDelete st (k : Int) true).vault.secrets
      = st.vault.secrets.eraseIdx k := by
    unfold itemDelete
    rw [hnorm]
    rfl
  rw [hsec]
  refine ⟨?_, ?_, ?_, ?_⟩
  · rw [List.length_eraseIdx]
    simp [h]
  · intro j hj
    simp only [List.get?_eq_getElem?]
    exact List.getElem?_eraseIdx_of_lt _ _ _ hj
  · intro j hj
    simp only [List.get?_eq_getElem?]
    rw [List.getElem?_eraseIdx_of_ge _ _ _ (by omega : k ≤ j - 1)]
    congr 1
    omega
  · intro a
    exact count_eraseIdx_add _ _ h a

/-- C2 witness: delete index 0 of the one-secret vault. -/
theorem C2_witness :
    (itemDelete stOne ((0 : Nat) : Int) true).vault.secrets.length
      = stOne.vault.secrets.length - 1 :=
  (C2_delete_shifts_down stOne 0 (by decide)).1

/-- C7: offering a new master key shorter than 8 characters fails (the
attempt is skipped and `changeKey` just retries on the remaining input):
no state reached during the run has the short passphrase as its live
master key, and the on-disk file is never encrypted under it. -/
theorem C7_weak_passphrase_rejected (st : VState) (nk rk : String)
    (rest : List (String × String))
    (hshort : nk.length < 8) (hdisk : st.disk.encKey = st.masterKey)
    (hne : nk ≠ st.masterKey) :
    changeKey st ((nk, rk) :: rest) = changeKey st rest
    ∧ ∀ s ∈ changeKeyTrace st ((nk, rk) :: rest),
        s.masterKey ≠ nk ∧ s.disk.encKey ≠ nk := by
  constructor
  · simp [changeKey, if_pos hshort]
  · intro s hs
    simp only [changeKeyTrace, if_pos hshort, List.mem_cons] at hs
    rcases hs with rfl | hs
    · exact ⟨fun h => hne h.symm, fun h => hne (h.symm.trans hdisk)⟩
    · obtain ⟨-, hkey, hdsk⟩ := changeKeyTrace_inv st rest s hs
      constructor
      · rcases hkey with hk | hk
        · rw [hk]; exact fun h => hne h.symm
        · intro h; rw [h] at hk; omega
      · rcases hdsk with hd | hd
        · rw [hd, hdisk]; exact fun h => hne h.symm
        · rw [hd.1]
          intro h
          have hm : s.masterKey = nk := h
          have := hd.2
          rw [hm] at this
          omega

/-- C7 witness: the 5-character key "short" is skipped. -/
theorem C7_witness :
    changeKey stOne [("short", "short"), ("newpassword1", "newpassword1")]
      = changeKey stOne [("newpassword1", "newpassword1")] :=
  (C7_weak_passphrase_rejected stOne "short" "short"
    [("newpassword1", "newpassword1")] (by decide) rfl (by decide)).1

/-- C1 counterexample: the claim says the re-encrypted vault is written
to disk *before* the old key is discarded; but running `changeKey` on
the unlocked session `stOne` with the accepted new key "newpassword1",
the trace passes through a state (its second element) where the live
master key is already the new one — `self.masterKey = newMasterKey` has
executed, the old key is discarded — while the disk still holds the file
encrypted under the old key, the write not yet done. -/
theorem C1_counterexample :
    changeKeyTrace stOne [("newpassword1", "newpassword1")]
      = [stOne, { stOne with masterKey := "newpassword1" },
         saveVault { stOne with masterKey := "newpassword1" }]
    ∧ ({ stOne with masterKey := "newpassword1" } : VState).masterKey ≠ stOne.masterKey
    ∧ ({ stOne with masterKey := "newpassword1" } : VState).disk.encKey = stOne.masterKey := by
  exact ⟨rfl, by decide, rfl⟩

/-- C1 (amended): rotation replaces the live in-memory key first and only
then re-encrypts and writes; still, at every state a rotation run passes
through, the on-disk file is either the untouched original (decryptable
by the old key) or the fully re-encrypted vault under the then-current
new key — never a half-migrated file decryptable by neither key. -/
theorem C1_rotation_never_undecryptable (st : VState)
    (inputs : List (String × String)) (hdisk : st.disk.encKey = st.masterKey) :
    ∀ s ∈ changeKeyTrace st inputs,
      s.disk.encKey = st.masterKey
      ∨ (s.disk.encKey = s.masterKey ∧ s.disk.content = s.vault) := by
  intro s hs
  rcases (changeKeyTrace_inv st inputs s hs).2.2 with hd | hd
  · left
    rw [hd, hdisk]
  · right
    rw [hd.1]
    exact ⟨rfl, rfl⟩

/-- C1 witness: the mid-rotation state (key replaced, disk not yet
rewritten) is still decryptable by the old key. -/
theorem C1_witness :
    ({ stOne with masterKey := "newpassword1" } : VState).disk.encKey = stOne.masterKey
    ∨ (({ stOne with masterKey := "newpassword1" } : VState).disk.encKey
          = ({ stOne with masterKey := "newpassword1" } : VState).masterKey
       ∧ ({ stOne with masterKey := "newpassword1" } : VState).disk.content
          = ({ stOne with masterKey := "newpassword1" } : VState).vault) :=
  C1_rotation_never_undecryptable stOne [("newpassword1", "newpassword1")] rfl
    { stOne with masterKey := "newpassword1" } (by decide)

/-- After the operation, either the disk holds the full re-encryption of
the current in-memory vault under the live key, or nothing changed at
all (neither the vault nor the disk). -/
def persistedOrUnchanged (st stNew : VState) : Prop :=
  stNew.disk = ⟨stNew.masterKey, stNew.vault⟩
  ∨ (stNew.vault = st.vault ∧ stNew.disk = st.disk)

/-- C4: each mutating operation — adding a secret, editing a field,
deleting a secret (any confirmation outcome), changing the master key —
either completes with a full re-encrypt-and-write of the whole vault
structure under the live key, or leaves both the in-memory vault and the
disk untouched; no mutation is applied in memory without a subsequent
save of the entire structure. -/
theorem C4_mutations_fully_persisted (st : VState)
    (categoryId name login password notes : String)
    (itemKey : Nat) (f : FieldName) (newValue : String)
    (delKey : Int) (confirmed : Bool) (inputs : List (String × String)) :
    persistedOrUnchanged st (addItemM st categoryId name login password notes)
    ∧ persistedOrUnchanged st (editFieldM st itemKey f newValue)
    ∧ persistedOrUnchanged st (itemDelete st delKey confirmed)
    ∧ persistedOrUnchanged st (changeKey st inputs) := by
  refine ⟨Or.inl rfl, Or.inl rfl, ?_, ?_⟩
  · unfold itemDelete
    cases pyNorm st.vault.secrets.length delKey with
    | none => exact Or.inr ⟨rfl, rfl⟩
    | some n =>
      cases confirmed with
      | true => exact Or.inl rfl
      | false => exact Or.inr ⟨rfl, rfl⟩
  · obtain ⟨hv, -, hd⟩ :=
      changeKeyTrace_inv st inputs (changeKey st inputs) (changeKey_mem_trace st inputs)
    rcases hd with hd | hd
    · exact Or.inr ⟨hv, hd⟩
    · exact Or.inl hd.1

/-- A natural-number index below the length normalises to itself. -/
lemma pyNorm_natCast (len n : Nat) (h : n < len) : pyNorm len (n : Int) = some n := by
  unfold pyNorm
  have h0 : (0 : Int) ≤ (n : Int) := Int.natCast_nonneg _
  have h1 : (n : Int) < (len : Int) := by exact_mod_cast h
  simp [h0, h1]

/-- C10: a query consisting only of digits that denotes a valid index
into the secrets sequence bypasses substring matching — `search` returns
that secret directly by index (and the index does retrieve a secret);
and a query equal to one of `s`, `a`, `l`, `q`, or `b` is treated as a
menu command (`b` returns to the previous menu) and is never searched
for. -/
theorem C10_digit_and_command_bypass (v : Vault) (q : String) (n : Nat)
    (hq : pyToNat q = some n) (hn : n < v.secrets.length) :
    (searchQuery v q = .byIndex n ∧ (v.getSecret (n : Int)).isSome)
    ∧ (∀ c, c = "s" ∨ c = "a" ∨ c = "l" ∨ c = "q" → searchQuery v c = .command c)
    ∧ searchQuery v "b" = .back
    ∧ (∀ c rs, c = "s" ∨ c = "a" ∨ c = "l" ∨ c = "q" ∨ c = "b" →
        searchQuery v c ≠ .results rs) := by
  refine ⟨⟨?_, ?_⟩, ?_, rfl, ?_⟩
  · have h0 : q ≠ "" := by
      rintro rfl
      rw [show pyToNat "" = none from rfl] at hq
      exact Option.noConfusion hq
    have h1 : ¬ (q = "s" ∨ q = "a" ∨ q = "l" ∨ q = "q") := by
      rintro (rfl | rfl | rfl | rfl)
      · rw [show pyToNat "s" = none from rfl] at hq; exact Option.noConfusion hq
      · rw [show pyToNat "a" = none from rfl] at hq; exact Option.noConfusion hq
      · rw [show pyToNat "l" = none from rfl] at hq; exact Option.noConfusion hq
      · rw [show pyToNat "q" = none from rfl] at hq; exact Option.noConfusion hq
    have h2 : q ≠ "b" := by
      rintro rfl
      rw [show pyToNat "b" = none from rfl] at hq
      exact Option.noConfusion hq
    have hne : v.secrets ≠ [] := by
      intro h3
      rw [h3] at hn
      simp at hn
    unfold searchQuery
    rw [if_neg h0, if_neg h1, if_neg h2, if_pos hne, hq]
    show (if n < v.secrets.length then SearchOutcome.byIndex n
          else .results (searchHits v q)) = .byIndex n
    rw [if_pos hn]
  · unfold Vault.getSecret pyIndex
    rw [pyNorm_natCast _ _ hn]
    simp [List.get?_eq_getElem?, List.getElem?_eq_getElem hn]
  · intro c hc
    rcases hc with rfl | rfl | rfl | rfl <;> rfl
  · intro c rs hc
    rcases hc with rfl | rfl | rfl | rfl | rfl <;>
      exact fun h => SearchOutcome.noConfusion h

/-- C10 witness: on a two-secret vault, the query "1" opens item 1. -/
theorem C10_witness : searchQuery vTwoSecrets "1" = .byIndex 1 :=
  (C10_digit_and_command_bypass vTwoSecrets "1" 1 rfl (by decide)).1.1

/-- C6 counterexample: the query "s" does match the single secret "sam"
case-insensitively, so the claim says `search` returns that (index,
item) pair; but "s" is intercepted as a menu command and no matching is
performed at all. -/
theorem C6_counterexample :
    searchHits vSam "s" = [(0, sSam)]
    ∧ searchQuery vSam "s" = .command "s"
    ∧ SearchOutcome.command "s" ≠ .results [(0, sSam)] := by
  exact ⟨rfl, rfl, by decide⟩

/-- C6 (amended): for every non-empty query other than the menu commands
`s`, `a`, `l`, `q`, `b` and other than an all-digits string denoting a
valid index, on a vault with at least one secret, `search` runs the scan
and its hits are exactly the secrets whose name, login, notes or
resolved category name contains the query as a case-insensitive
substring, paired with their indices, with indices strictly increasing
(original vault order). -/
theorem C6_search_exactly_matches (v : Vault) (q : String)
    (h0 : q ≠ "") (hs : q ≠ "s") (ha : q ≠ "a") (hl : q ≠ "l") (hqq : q ≠ "q")
    (hb : q ≠ "b")
    (hidx : ∀ n, pyToNat q = some n → v.secrets.length ≤ n)
    (hne : v.secrets ≠ []) :
    searchQuery v q = .results (searchHits v q)
    ∧ (∀ i it, (i, it) ∈ searchHits v q
        ↔ v.secrets.get? i = some it ∧ matchesQuery v q it = true)
    ∧ (searchHits v q).Pairwise (fun a b => a.1 < b.1) := by
  refine ⟨?_, ?_, ?_⟩
  · have h1 : ¬ (q = "s" ∨ q = "a" ∨ q = "l" ∨ q = "q") := by
      rintro (rfl | rfl | rfl | rfl) <;> simp_all
    unfold searchQuery
    rw [if_neg h0, if_neg h1, if_neg hb, if_pos hne]
    cases hpt : pyToNat q with
    | none => rfl
    | some n =>
      show (if n < v.secrets.length then SearchOutcome.byIndex n
            else .results (searchHits v q)) = .results (searchHits v q)
      rw [if_neg (not_lt.mpr (hidx n hpt))]
  · intro i it
    simp [searchHits, List.mem_filter, List.mk_mem_enum_iff_getElem?,
      List.get?_eq_getElem?]
  · exact (pairwise_fst_lt_enum v.secrets).sublist (List.filter_sublist _)

/-- C6 witness: the query "am" on the vault holding "sam" runs the scan
and returns its hits. -/
theorem C6_witness : searchQuery vSam "am" = .results (searchHits vSam "am") :=
  (C6_search_exactly_matches vSam "am" (by decide) (by decide) (by decide)
    (by decide) (by decide) (by decide)
    (fun n hn => by
      rw [show pyToNat "am" = none from rfl] at hn
      exact Option.noConfusion hn)
    (by decide)).1

/-- C3 (code bug): with one category (id 0), entering category number 9
on a new item is flagged "Invalid category. Please try again." and the
input flow recurses for a retry — but there is no `return`, so when the
retry is cancelled the original invocation falls through and saves the
item *with* the invalid category reference "9"; the same fall-through
exists when editing a secret's category field.  The theorem evaluates
both flows at that input: "9" fails `categoryCheckId`, yet the secret
is appended (and persisted) carrying category "9", and the edited secret
ends up with category "9". -/
theorem C3_invalid_category_still_saved :
    categoryCheckId vCats "9" = false
    ∧ (addItemInput stCats eventsBadCat).1.vault.secrets
        = [⟨"9", "bank", "alice", "p4ss", ""⟩]
    ∧ (addItemInput stCats eventsBadCat).1.disk
        = ⟨"correcthorse", ⟨[catWork], [⟨"9", "bank", "alice", "p4ss", ""⟩]⟩⟩
    ∧ categoryCheckId vOneCat "9" = false
    ∧ (editItemInputCategory stEdit 0 [.text "9", .cancel]).1.vault.secrets
        = [⟨"9", "bank", "alice", "p1", ""⟩] := by
  exact ⟨rfl, rfl, rfl, rfl, rfl⟩

end VaultModel
